import Mathlib

/-!
# Verification of the delayed-enrollment reconciliation service

Shallow embedding of `src/app.py` (Flask + APScheduler service):
* the `User` row of the registration store,
* `get_fresh_learny_token` (credential provider),
* the hourly pass `process_daily_sequence` (reconciliation scheduler),
* the intake endpoint `register`.

Calendar dates are modelled by an integer day ordinal (`Date := Int`):
the calendar is totally ordered and `today - timedelta(days=1)` is the
ordinal predecessor, so `≤` on ordinals is exactly `<=` on dates.
External HTTP traffic is modelled by explicit response values: a request
either raises (`exn`, covering timeout / connection error / any exception
in the `try` block) or yields a status code together with a body.
-/

namespace App

/-- Day ordinal standing in for a Python `datetime.date`. -/
abbrev Date := Int

/-- The `status` column of the `users` table: `'pending' | 'processed' | 'error'`. -/
inductive Status where
  | pending
  | processed
  | error
deriving DecidableEq, Repr

/-- One row of the `users` table (class `User` in `app.py`).  Columns without
`nullable=False` are `Option`-valued. -/
structure User where
  id : Nat
  email : String
  firstname : Option String
  lastname : Option String
  phone : Option String
  sequence_id : Option Int
  session_date : Date
  status : Status
  created_at : Int
deriving DecidableEq, Repr

/-! ## Credential provider: `get_fresh_learny_token` -/

/-- Body of a token-endpoint response, as seen by
`resp.json().get('data', {}).get('access_token')`:
either `resp.json()` raises (`malformed`), or the extraction chain yields an
optional token string (`none` when the `data` object or the `access_token`
field is absent). -/
inductive TokenBody where
  | malformed
  | parsed (access_token : Option String)
deriving DecidableEq, Repr

/-- Result of the `requests.post` call to the token endpoint: an exception
(timeout, connection error, ...) or an HTTP response. -/
inductive TokenResult where
  | exn
  | resp (code : Nat) (body : TokenBody)
deriving DecidableEq, Repr

/-- Model of `get_fresh_learny_token` (app.py lines 52-73).  On HTTP 200 it extracts
`data.access_token` and returns it when truthy (in Python an empty string is
falsy); in every other case, exceptions included, it returns `None`. -/
def get_fresh_learny_token : TokenResult → Option String
  | TokenResult.exn => none
  | TokenResult.resp code body =>
    if code = 200 then
      match body with
      | TokenBody.malformed => none
      | TokenBody.parsed tok =>
        match tok with
        | some t => if t = "" then none else some t
        | none => none
    else none

/-! ## Reconciliation scheduler: `process_daily_sequence` -/

/-- Result of the `requests.post` call to the contact endpoint for one user:
an exception (timeout, connection error, ...) or an HTTP response with a
status code. -/
inductive ReqResult where
  | ok (code : Nat)
  | exn
deriving DecidableEq, Repr

/-- A value of the form payload sent to the contact endpoint (the Python dict
mixes strings, `None` and integers). -/
inductive FormValue where
  | str (s : String)
  | optStr (s : Option String)
  | optInt (n : Option Int)
  | num (n : Int)
deriving DecidableEq, Repr

/-- The form payload built for one user in the enrollment loop
(app.py lines 112-119), in source order. -/
def enrollPayload (u : User) : List (String × FormValue) :=
  [ ("prenom", FormValue.optStr u.firstname)
  , ("nom", FormValue.optStr u.lastname)
  , ("email", FormValue.str u.email)
  , ("mobile", FormValue.optStr u.phone)
  , ("id_sequence", FormValue.optInt u.sequence_id)
  , ("rgpd", FormValue.num 1) ]

/-- The eligibility filter of the pass:
`User.session_date <= target_date, User.status == 'pending'`
(app.py lines 93-96). -/
def eligible (target_date : Date) (u : User) : Bool :=
  decide (u.session_date ≤ target_date) && decide (u.status = Status.pending)

/-- One iteration of the enrollment loop body for one user (app.py lines
121-136): `200`/`201` sets `status = 'processed'`, any other status code sets
`status = 'error'`, and an exception leaves the row untouched. -/
def stepUser (net : User → ReqResult) (u : User) : User :=
  match net u with
  | ReqResult.ok code =>
    if code = 200 ∨ code = 201 then { u with status := Status.processed }
    else { u with status := Status.error }
  | ReqResult.exn => u

/-- The effect of the loop on one arbitrary row of the store: eligible rows go
through `stepUser`, the rest are untouched. -/
def stepIfEligible (target_date : Date) (net : User → ReqResult) (u : User) : User :=
  if eligible target_date u then stepUser net u else u

/-- Observable result of one pass: the store after commit, whether the token
endpoint was called, the query result (`users_to_process`), and the list of
users a contact request was sent for. -/
structure PassResult where
  store : List User
  tokenRequested : Bool
  selected : List User
  submitted : List User
deriving Repr

/-- One pass of `process_daily_sequence` (app.py lines 79-140).
`today` is `datetime.now().date()`, `tok` the token-endpoint response and
`net` the contact-endpoint response for each user.  The pass queries the
eligible rows; if none, it returns at once (no token request).  Otherwise it
fetches a token, aborting the pass if that fails, and else runs the loop and
commits. -/
def process_daily_sequence (today : Date) (tok : TokenResult)
    (net : User → ReqResult) (store : List User) : PassResult :=
  let target_date := today - 1
  let users_to_process := store.filter (eligible target_date)
  if users_to_process.isEmpty then
    { store := store, tokenRequested := false, selected := users_to_process,
      submitted := [] }
  else
    match get_fresh_learny_token tok with
    | none =>
      { store := store, tokenRequested := true, selected := users_to_process,
        submitted := [] }
    | some _ =>
      { store := store.map (stepIfEligible target_date net),
        tokenRequested := true, selected := users_to_process,
        submitted := users_to_process }

/-! ## Intake endpoint: `register`

`datetime.strptime(s, '%Y-%m-%d')` is modelled by `parseSessionDate`,
following CPython's `_strptime`: `%Y` matches exactly four digits, `%m` and
`%d` match one or two digits, the whole string must be consumed, and the
resulting `datetime` construction validates the year (`1..9999`), month
(`1..12`) and day against the month length. -/

/-- Holds on years counted as leap years by the Gregorian rules that
`datetime` uses. -/
def isLeap (y : Nat) : Bool :=
  (y % 4 = 0 && y % 100 ≠ 0) || y % 400 = 0

/-- Number of days of month `m` of year `y`, per `datetime`. -/
def daysInMonth (y m : Nat) : Nat :=
  if m = 2 then (if isLeap y then 29 else 28)
  else if m = 4 ∨ m = 6 ∨ m = 9 ∨ m = 11 then 30
  else 31

/-- Split a character list at every `'-'` (the separators of the
`'%Y-%m-%d'` format string). -/
def splitOnDash : List Char → List (List Char)
  | [] => [[]]
  | c :: cs =>
    if c = '-' then [] :: splitOnDash cs
    else
      match splitOnDash cs with
      | [] => [[c]]
      | p :: ps => (c :: p) :: ps

/-- Decimal value of a digit string. -/
def digitsToNat (cs : List Char) : Nat :=
  cs.foldl (fun n c => n * 10 + (c.toNat - 48)) 0

/-- Model of `datetime.strptime(s, '%Y-%m-%d').date()`: `some (y, m, d)` when the string
parses and denotes a valid calendar date, `none` when `strptime` raises
`ValueError`. -/
def parseSessionDate (s : String) : Option (Nat × Nat × Nat) :=
  match splitOnDash s.toList with
  | [ys, ms, ds] =>
    if ys.length = 4 && 1 ≤ ms.length && ms.length ≤ 2 && 1 ≤ ds.length && ds.length ≤ 2
        && ys.all Char.isDigit && ms.all Char.isDigit && ds.all Char.isDigit then
      let y := digitsToNat ys
      let m := digitsToNat ms
      let d := digitsToNat ds
      if 1 ≤ y && y ≤ 9999 && 1 ≤ m && m ≤ 12 && 1 ≤ d && d ≤ daysInMonth y m then
        some (y, m, d)
      else none
    else none
  | _ => none

/-- Order-embedding of a parsed `(y, m, d)` triple into the day-ordinal model
of `Date` (lexicographic packing; months and days stay below 32). -/
def encodeDate : Nat × Nat × Nat → Date
  | (y, m, d) => (y : Int) * 512 + (m : Int) * 32 + (d : Int)

/-- The JSON body of a `POST /api/register` request; a field absent from the
payload is `none`.  `request.json` itself being `None`/empty is the `none`
case of the `Option ReqBody` argument of `register`. -/
structure ReqBody where
  email : Option String
  firstname : Option String
  lastname : Option String
  phone : Option String
  sequence_id : Option Int
  session_date : Option String
deriving DecidableEq, Repr

/-- The `register` handler (app.py lines 145-170): returns the HTTP status
code and the store after the request.  Missing `email` or `session_date`
gives 400 before the `try` block; inside it, `strptime` raising on a bad
date string and the `KeyError` raised by `data['firstname']` /
`data['lastname']` when those keys are absent are both caught by the blanket
`except`, giving 500; otherwise the row is inserted with `status='pending'`
and the handler answers 201. -/
def register (now : Int) (nextId : Nat) (data : Option ReqBody)
    (store : List User) : Nat × List User :=
  match data with
  | none => (400, store)
  | some p =>
    match p.email, p.session_date with
    | some em, some ds =>
      match parseSessionDate ds with
      | none => (500, store)
      | some ymd =>
        match p.firstname, p.lastname with
        | some fn, some ln =>
          (201, store ++ [{ id := nextId, email := em, firstname := some fn,
                            lastname := some ln, phone := p.phone,
                            sequence_id := p.sequence_id,
                            session_date := encodeDate ymd,
                            status := Status.pending, created_at := now }])
        | _, _ => (500, store)
    | _, _ => (400, store)

/-! ## Basic lemmas about one pass -/

/-- An eligible row is `pending` with `session_date` at most the target. -/
lemma eligible_iff {t : Date} {u : User} :
    eligible t u = true ↔ u.session_date ≤ t ∧ u.status = Status.pending := by
  simp [eligible]

/-- The loop body never touches any column other than `status`. -/
lemma stepUser_frame (net : User → ReqResult) (u : User) :
    (stepUser net u).id = u.id ∧ (stepUser net u).email = u.email ∧
    (stepUser net u).firstname = u.firstname ∧ (stepUser net u).lastname = u.lastname ∧
    (stepUser net u).phone = u.phone ∧ (stepUser net u).sequence_id = u.sequence_id ∧
    (stepUser net u).session_date = u.session_date ∧ (stepUser net u).created_at = u.created_at := by
  unfold stepUser
  cases hn : net u with
  | ok code =>
    by_cases h : code = 200 ∨ code = 201 <;> simp [h]
  | exn => simp

/-- A row that fails the eligibility filter is untouched. -/
lemma stepIfEligible_not_eligible {t : Date} {net : User → ReqResult} {u : User}
    (h : eligible t u = false) : stepIfEligible t net u = u := by
  simp [stepIfEligible, h]

/-- Like `stepUser`, `stepIfEligible` never touches any column other than `status`. -/
lemma stepIfEligible_frame (t : Date) (net : User → ReqResult) (u : User) :
    (stepIfEligible t net u).id = u.id ∧ (stepIfEligible t net u).email = u.email ∧
    (stepIfEligible t net u).firstname = u.firstname ∧
    (stepIfEligible t net u).lastname = u.lastname ∧
    (stepIfEligible t net u).phone = u.phone ∧
    (stepIfEligible t net u).sequence_id = u.sequence_id ∧
    (stepIfEligible t net u).session_date = u.session_date ∧
    (stepIfEligible t net u).created_at = u.created_at := by
  unfold stepIfEligible
  split
  · exact stepUser_frame net u
  · simp

/-- The query result `users_to_process` is always the eligibility filter of the store. -/
lemma pass_selected_eq (today : Date) (tok : TokenResult) (net : User → ReqResult)
    (store : List User) :
    (process_daily_sequence today tok net store).selected
      = store.filter (eligible (today - 1)) := by
  cases h1 : (store.filter (eligible (today - 1))).isEmpty
  · cases h2 : get_fresh_learny_token tok <;>
      simp [process_daily_sequence, h1, h2]
  · simp [process_daily_sequence, h1]

/-- The store after a pass is either unchanged (early return) or the map of
the loop body over the store (loop ran and committed). -/
lemma pass_store_cases (today : Date) (tok : TokenResult) (net : User → ReqResult)
    (store : List User) :
    (process_daily_sequence today tok net store).store = store ∨
    (process_daily_sequence today tok net store).store
      = store.map (stepIfEligible (today - 1) net) := by
  cases h1 : (store.filter (eligible (today - 1))).isEmpty
  · cases h2 : get_fresh_learny_token tok
    · exact Or.inl (by simp [process_daily_sequence, h1, h2])
    · exact Or.inr (by simp [process_daily_sequence, h1, h2])
  · exact Or.inl (by simp [process_daily_sequence, h1])

/-- A pass never inserts or deletes rows. -/
lemma pass_store_length (today : Date) (tok : TokenResult) (net : User → ReqResult)
    (store : List User) :
    (process_daily_sequence today tok net store).store.length = store.length := by
  rcases pass_store_cases today tok net store with h | h <;> simp [h]

/-- When the filter is nonempty and the token was obtained, the committed
store is exactly the map of the loop body. -/
lemma pass_store_run {today : Date} {tok : TokenResult} {net : User → ReqResult}
    {store : List User}
    (h1 : (store.filter (eligible (today - 1))).isEmpty = false)
    (h2 : (get_fresh_learny_token tok).isSome = true) :
    (process_daily_sequence today tok net store).store
      = store.map (stepIfEligible (today - 1) net) := by
  rcases Option.isSome_iff_exists.mp h2 with ⟨t, ht⟩
  simp [process_daily_sequence, h1, ht]

/-- Contact requests are sent either for nobody (early return or token
failure) or for exactly the rows passing the eligibility filter. -/
lemma pass_submitted_cases (today : Date) (tok : TokenResult) (net : User → ReqResult)
    (store : List User) :
    (process_daily_sequence today tok net store).submitted = [] ∨
    (process_daily_sequence today tok net store).submitted
      = store.filter (eligible (today - 1)) := by
  cases h1 : (store.filter (eligible (today - 1))).isEmpty
  · cases h2 : get_fresh_learny_token tok
    · exact Or.inl (by simp [process_daily_sequence, h1, h2])
    · exact Or.inr (by simp [process_daily_sequence, h1, h2])
  · exact Or.inl (by simp [process_daily_sequence, h1])

/-- If some row of the store is eligible, `users_to_process` is nonempty. -/
lemma filter_not_empty_of_get {today : Date} {store : List User} {i : Nat}
    (hi : i < store.length)
    (helig : eligible (today - 1) (store.get ⟨i, hi⟩) = true) :
    (store.filter (eligible (today - 1))).isEmpty = false := by
  have hmem : store.get ⟨i, hi⟩ ∈ store.filter (eligible (today - 1)) :=
    List.mem_filter.mpr ⟨List.get_mem store i hi, helig⟩
  cases hE : (store.filter (eligible (today - 1))).isEmpty
  · rfl
  · rw [List.isEmpty_iff.mp hE] at hmem
    cases hmem

/-- When the loop runs, the row at position `i` of the committed store is the
loop body applied to the original row at position `i`. -/
lemma pass_store_get_run {today : Date} {tok : TokenResult} {net : User → ReqResult}
    {store : List User} {i : Nat} (hi : i < store.length)
    (hne : (store.filter (eligible (today - 1))).isEmpty = false)
    (htok : (get_fresh_learny_token tok).isSome = true)
    (hj : i < (process_daily_sequence today tok net store).store.length) :
    (process_daily_sequence today tok net store).store.get ⟨i, hj⟩
      = stepIfEligible (today - 1) net (store.get ⟨i, hi⟩) := by
  have hrun : (process_daily_sequence today tok net store).store
      = store.map (stepIfEligible (today - 1) net) := pass_store_run hne htok
  simp only [List.get_eq_getElem]
  rw [List.getElem_of_eq hrun hj, List.getElem_map]

/-- Positionwise version of `pass_store_cases`. -/
lemma pass_store_get_cases {today : Date} {tok : TokenResult} {net : User → ReqResult}
    {store : List User} {i : Nat} (hi : i < store.length)
    (hj : i < (process_daily_sequence today tok net store).store.length) :
    (process_daily_sequence today tok net store).store.get ⟨i, hj⟩ = store.get ⟨i, hi⟩ ∨
    (process_daily_sequence today tok net store).store.get ⟨i, hj⟩
      = stepIfEligible (today - 1) net (store.get ⟨i, hi⟩) := by
  rcases pass_store_cases today tok net store with h | h
  · left
    simp only [List.get_eq_getElem]
    rw [List.getElem_of_eq h hj]
  · right
    simp only [List.get_eq_getElem]
    rw [List.getElem_of_eq h hj, List.getElem_map]

/-- Claim C1: for every eligible record processed in a pass (the pass reached
the enrollment loop, i.e. a token was obtained), the committed status follows
the enrollment outcome: HTTP 200 or 201 gives `processed`, any other HTTP
status gives `error`, and an exception (timeout, connection error) leaves the
record's status unchanged at `pending`. -/
theorem C1_status_follows_outcome (today : Date) (tok : TokenResult)
    (net : User → ReqResult) (store : List User) (i : Nat) (hi : i < store.length)
    (helig : eligible (today - 1) (store.get ⟨i, hi⟩) = true)
    (htok : (get_fresh_learny_token tok).isSome = true) :
    ∃ hj : i < (process_daily_sequence today tok net store).store.length,
      (∀ c, net (store.get ⟨i, hi⟩) = ReqResult.ok c →
        ((c = 200 ∨ c = 201) →
          ((process_daily_sequence today tok net store).store.get ⟨i, hj⟩).status
            = Status.processed) ∧
        (¬ (c = 200 ∨ c = 201) →
          ((process_daily_sequence today tok net store).store.get ⟨i, hj⟩).status
            = Status.error)) ∧
      (net (store.get ⟨i, hi⟩) = ReqResult.exn →
        ((process_daily_sequence today tok net store).store.get ⟨i, hj⟩).status
          = Status.pending) := by
  have hne := filter_not_empty_of_get hi helig
  have hj : i < (process_daily_sequence today tok net store).store.length := by
    rw [pass_store_length]; exact hi
  refine ⟨hj, ?_, ?_⟩
  · intro c hc
    have hget := pass_store_get_run hi hne htok hj
    rw [hget]
    unfold stepIfEligible
    rw [helig]
    unfold stepUser
    rw [hc]
    constructor
    · intro h2
      simp [h2]
    · intro h2
      simp [h2]
  · intro hc
    have hget := pass_store_get_run hi hne htok hj
    rw [hget]
    unfold stepIfEligible
    rw [helig]
    unfold stepUser
    rw [hc]
    exact (eligible_iff.mp helig).2

/-! ## Concrete fixtures for the closed instances -/

/-- A pending row whose session date (`3`) is in the past for a pass run on
day `5`. -/
def uPending : User :=
  { id := 1, email := "a@x.com", firstname := some "Ann", lastname := some "Bee",
    phone := none, sequence_id := some 7, session_date := 3,
    status := Status.pending, created_at := 0 }

/-- A pending row whose session date (`100`) is still in the future on day
`5`. -/
def uFuture : User :=
  { uPending with id := 2, session_date := 100 }

/-- An already-processed row. -/
def uDone : User :=
  { uPending with id := 3, status := Status.processed }

/-- A token-endpoint response that yields a token. -/
def tokOK : TokenResult := TokenResult.resp 200 (TokenBody.parsed (some "tok123"))

/-- A token-endpoint call that raises. -/
def tokFail : TokenResult := TokenResult.exn

/-- A contact endpoint answering 201 for everybody. -/
def netOK : User → ReqResult := fun _ => ReqResult.ok 201

/-- A contact endpoint that times out for everybody. -/
def netDown : User → ReqResult := fun _ => ReqResult.exn

/-- Closed instance of `C1_status_follows_outcome`: on day 5 with a valid
token and a contact endpoint answering 201, the pending row becomes
`processed`. -/
theorem C1_status_follows_outcome_witness :
    ((process_daily_sequence 5 tokOK netOK [uPending]).store.get
        ⟨0, by decide⟩).status = Status.processed := by
  obtain ⟨hj, h1, _⟩ := C1_status_follows_outcome 5 tokOK netOK [uPending] 0
    (by decide) (by decide) (by decide)
  exact (h1 201 rfl).1 (Or.inr rfl)

/-- Claim C2: when at least one record is eligible but the token could not be
obtained, the pass returns before the loop: the store is unchanged, no
contact request is sent, and every candidate record is still `pending`. -/
theorem C2_token_failure_aborts (today : Date) (tok : TokenResult)
    (net : User → ReqResult) (store : List User)
    (h1 : (store.filter (eligible (today - 1))).isEmpty = false)
    (h2 : get_fresh_learny_token tok = none) :
    (process_daily_sequence today tok net store).store = store ∧
    (process_daily_sequence today tok net store).submitted = [] ∧
    ∀ u, u ∈ (process_daily_sequence today tok net store).store →
      eligible (today - 1) u = true → u.status = Status.pending := by
  refine ⟨?_, ?_, ?_⟩
  · simp [process_daily_sequence, h1, h2]
  · simp [process_daily_sequence, h1, h2]
  · intro u _ helig
    exact (eligible_iff.mp helig).2

/-- Closed instance of `C2_token_failure_aborts`: with an eligible row and a
token call that raises, the pass leaves the store as it was and submits
nothing. -/
theorem C2_token_failure_aborts_witness :
    (process_daily_sequence 5 tokFail netOK [uPending]).store = [uPending] ∧
    (process_daily_sequence 5 tokFail netOK [uPending]).submitted = [] := by
  have h := C2_token_failure_aborts 5 tokFail netOK [uPending] (by decide) (by decide)
  exact ⟨h.1, h.2.1⟩

/-- Claim C3: the rows a pass selects are exactly those passing the filter
`status == 'pending' && session_date <= today - 1`; only selected rows are
ever submitted, every selected row is a pending store row with a past-enough
session date, and a row failing the filter is left untouched — however many
scheduled intervals were missed (the claim holds for every `today`). -/
theorem C3_selection_exact (today : Date) (tok : TokenResult)
    (net : User → ReqResult) (store : List User) :
    (process_daily_sequence today tok net store).selected
      = store.filter (eligible (today - 1)) ∧
    (∀ u, u ∈ (process_daily_sequence today tok net store).submitted →
      u ∈ (process_daily_sequence today tok net store).selected) ∧
    (∀ u, u ∈ (process_daily_sequence today tok net store).selected →
      u ∈ store ∧ u.status = Status.pending ∧ u.session_date ≤ today - 1) ∧
    ∀ i, (hi : i < store.length) →
      eligible (today - 1) (store.get ⟨i, hi⟩) = false →
      ∃ hj : i < (process_daily_sequence today tok net store).store.length,
        (process_daily_sequence today tok net store).store.get ⟨i, hj⟩
          = store.get ⟨i, hi⟩ := by
  refine ⟨pass_selected_eq today tok net store, ?_, ?_, ?_⟩
  · intro u hu
    rcases pass_submitted_cases today tok net store with h | h
    · rw [h] at hu
      cases hu
    · rw [h] at hu
      rw [pass_selected_eq]
      exact hu
  · intro u hu
    rw [pass_selected_eq] at hu
    have hmem := List.mem_filter.mp hu
    exact ⟨hmem.1, (eligible_iff.mp hmem.2).2, (eligible_iff.mp hmem.2).1⟩
  · intro i hi helig
    have hj : i < (process_daily_sequence today tok net store).store.length := by
      rw [pass_store_length]; exact hi
    refine ⟨hj, ?_⟩
    rcases pass_store_get_cases hi hj with h | h
    · exact h
    · rw [h, stepIfEligible_not_eligible helig]

/-- Closed instance of `C3_selection_exact`: on day 5 only the past-session
pending row is selected; the future-session row is untouched even though the
token and the endpoint are healthy. -/
theorem C3_selection_exact_witness :
    (process_daily_sequence 5 tokOK netOK [uPending, uFuture]).selected = [uPending] ∧
    uPending ∈ ([uPending, uFuture] : List User) ∧
    (process_daily_sequence 5 tokOK netOK [uPending, uFuture]).store.get
        ⟨1, by rw [pass_store_length]; decide⟩ = uFuture := by
  have h := C3_selection_exact 5 tokOK netOK [uPending, uFuture]
  refine ⟨?_, ?_, ?_⟩
  · rw [h.1]
    decide
  · exact (h.2.2.1 uPending (by rw [h.1]; decide)).1
  · obtain ⟨hj, he⟩ := h.2.2.2 1 (by decide) (by decide)
    exact he

/-- Claim C4: a pass over a store with no eligible rows is a no-op: no token
request, no contact request, store unchanged — and therefore a second such
pass (at any later day that still has no eligible rows) changes nothing
either. -/
theorem C4_no_eligible_noop (today today2 : Date) (tok tok2 : TokenResult)
    (net net2 : User → ReqResult) (store : List User)
    (h1 : store.filter (eligible (today - 1)) = [])
    (h2 : store.filter (eligible (today2 - 1)) = []) :
    (process_daily_sequence today tok net store).store = store ∧
    (process_daily_sequence today tok net store).tokenRequested = false ∧
    (process_daily_sequence today tok net store).submitted = [] ∧
    (process_daily_sequence today2 tok2 net2
        (process_daily_sequence today tok net store).store).store = store ∧
    (process_daily_sequence today2 tok2 net2
        (process_daily_sequence today tok net store).store).tokenRequested = false ∧
    (process_daily_sequence today2 tok2 net2
        (process_daily_sequence today tok net store).store).submitted = [] := by
  have e1 : (store.filter (eligible (today - 1))).isEmpty = true := by
    rw [h1]; rfl
  have e2 : (store.filter (eligible (today2 - 1))).isEmpty = true := by
    rw [h2]; rfl
  have hstore1 : (process_daily_sequence today tok net store).store = store := by
    simp [process_daily_sequence, e1]
  refine ⟨hstore1, ?_, ?_, ?_, ?_, ?_⟩
  · simp [process_daily_sequence, e1]
  · simp [process_daily_sequence, e1]
  · rw [hstore1]
    simp [process_daily_sequence, e2]
  · rw [hstore1]
    simp [process_daily_sequence, e2]
  · rw [hstore1]
    simp [process_daily_sequence, e2]

/-- Closed instance of `C4_no_eligible_noop`: a store holding one future
session and one processed row is untouched by two consecutive passes, with
no token request. -/
theorem C4_no_eligible_noop_witness :
    (process_daily_sequence 5 tokOK netOK [uFuture, uDone]).store = [uFuture, uDone] ∧
    (process_daily_sequence 5 tokOK netOK [uFuture, uDone]).tokenRequested = false ∧
    (process_daily_sequence 6 tokOK netOK
        (process_daily_sequence 5 tokOK netOK [uFuture, uDone]).store).store
      = [uFuture, uDone] := by
  have h := C4_no_eligible_noop 5 6 tokOK tokOK netOK netOK [uFuture, uDone]
    (by decide) (by decide)
  exact ⟨h.1, h.2.1, h.2.2.2.1⟩

/-- Claim C5: a row whose status is not `pending` (`processed` or `error`) is
never selected, never submitted, and comes out of any pass identical —
whatever the store, token response and endpoint behaviour. -/
theorem C5_terminal_states_preserved (today : Date) (tok : TokenResult)
    (net : User → ReqResult) (store : List User) (i : Nat) (hi : i < store.length)
    (h : (store.get ⟨i, hi⟩).status ≠ Status.pending) :
    (∃ hj : i < (process_daily_sequence today tok net store).store.length,
      (process_daily_sequence today tok net store).store.get ⟨i, hj⟩
        = store.get ⟨i, hi⟩) ∧
    store.get ⟨i, hi⟩ ∉ (process_daily_sequence today tok net store).selected ∧
    store.get ⟨i, hi⟩ ∉ (process_daily_sequence today tok net store).submitted := by
  have helig : eligible (today - 1) (store.get ⟨i, hi⟩) = false := by
    cases hE : eligible (today - 1) (store.get ⟨i, hi⟩)
    · rfl
    · exact absurd (eligible_iff.mp hE).2 h
  have hnotmem : store.get ⟨i, hi⟩ ∉ store.filter (eligible (today - 1)) := by
    intro hmem
    have := (List.mem_filter.mp hmem).2
    rw [helig] at this
    cases this
  refine ⟨?_, ?_, ?_⟩
  · have hj : i < (process_daily_sequence today tok net store).store.length := by
      rw [pass_store_length]; exact hi
    refine ⟨hj, ?_⟩
    rcases pass_store_get_cases hi hj with hc | hc
    · exact hc
    · rw [hc, stepIfEligible_not_eligible helig]
  · rw [pass_selected_eq]
    exact hnotmem
  · rcases pass_submitted_cases today tok net store with hc | hc <;> rw [hc]
    · intro hmem
      cases hmem
    · exact hnotmem

/-- Closed instance of `C5_terminal_states_preserved`: the processed row of a
two-row store survives a pass unchanged and is neither selected nor
submitted, although the pass does run its loop for the pending row. -/
theorem C5_terminal_states_preserved_witness :
    ((process_daily_sequence 5 tokOK netOK [uPending, uDone]).store.get
        ⟨1, by rw [pass_store_length]; decide⟩ = uDone) ∧
    uDone ∉ (process_daily_sequence 5 tokOK netOK [uPending, uDone]).selected := by
  have h := C5_terminal_states_preserved 5 tokOK netOK [uPending, uDone] 1
    (by decide) (by decide)
  obtain ⟨⟨hj, he⟩, hsel, _⟩ := h
  exact ⟨he, hsel⟩

/-- Claim C7: a pass can change only the `status` column: at every position of
the store, all other columns (`id`, `email`, `firstname`, `lastname`,
`phone`, `sequence_id`, `session_date`, `created_at`) are identical before
and after the pass. -/
theorem C7_only_status_written (today : Date) (tok : TokenResult)
    (net : User → ReqResult) (store : List User) (i : Nat) (hi : i < store.length) :
    ∃ hj : i < (process_daily_sequence today tok net store).store.length,
      ((process_daily_sequence today tok net store).store.get ⟨i, hj⟩).id
          = (store.get ⟨i, hi⟩).id ∧
      ((process_daily_sequence today tok net store).store.get ⟨i, hj⟩).email
          = (store.get ⟨i, hi⟩).email ∧
      ((process_daily_sequence today tok net store).store.get ⟨i, hj⟩).firstname
          = (store.get ⟨i, hi⟩).firstname ∧
      ((process_daily_sequence today tok net store).store.get ⟨i, hj⟩).lastname
          = (store.get ⟨i, hi⟩).lastname ∧
      ((process_daily_sequence today tok net store).store.get ⟨i, hj⟩).phone
          = (store.get ⟨i, hi⟩).phone ∧
      ((process_daily_sequence today tok net store).store.get ⟨i, hj⟩).sequence_id
          = (store.get ⟨i, hi⟩).sequence_id ∧
      ((process_daily_sequence today tok net store).store.get ⟨i, hj⟩).session_date
          = (store.get ⟨i, hi⟩).session_date ∧
      ((process_daily_sequence today tok net store).store.get ⟨i, hj⟩).created_at
          = (store.get ⟨i, hi⟩).created_at := by
  have hj : i < (process_daily_sequence today tok net store).store.length := by
    rw [pass_store_length]; exact hi
  refine ⟨hj, ?_⟩
  rcases pass_store_get_cases hi hj with hc | hc <;> rw [hc]
  · exact ⟨rfl, rfl, rfl, rfl, rfl, rfl, rfl, rfl⟩
  · exact stepIfEligible_frame (today - 1) net (store.get ⟨i, hi⟩)

/-- Closed instance of `C7_only_status_written`: the pending row enrolled on
day 5 keeps every column except `status`. -/
theorem C7_only_status_written_witness :
    ((process_daily_sequence 5 tokOK netOK [uPending]).store.get
        ⟨0, by rw [pass_store_length]; decide⟩).email = uPending.email ∧
    ((process_daily_sequence 5 tokOK netOK [uPending]).store.get
        ⟨0, by rw [pass_store_length]; decide⟩).session_date
      = uPending.session_date := by
  obtain ⟨hj, h⟩ := C7_only_status_written 5 tokOK netOK [uPending] 0 (by decide)
  exact ⟨h.2.1, h.2.2.2.2.2.2.1⟩

/-- Claim C10: the form payload sent for every record carries the consent flag
hard-coded to `1` (`rgpd=1`), whatever the record holds, and its keys are
exactly `prenom, nom, email, mobile, id_sequence, rgpd` — in particular it
has no consent-timestamp field (`date_rgpd`). -/
theorem C10_rgpd_hardcoded (u : User) :
    (enrollPayload u).lookup "rgpd" = some (FormValue.num 1) ∧
    (enrollPayload u).map Prod.fst
      = ["prenom", "nom", "email", "mobile", "id_sequence", "rgpd"] ∧
    "date_rgpd" ∉ (enrollPayload u).map Prod.fst := by
  refine ⟨?_, rfl, ?_⟩
  · rfl
  · intro hmem
    simp [enrollPayload] at hmem

/-- Closed instance of `C10_rgpd_hardcoded` at a concrete record. -/
theorem C10_rgpd_hardcoded_witness :
    (enrollPayload uPending).lookup "rgpd" = some (FormValue.num 1) :=
  (C10_rgpd_hardcoded uPending).1

/-! ## Claims about the credential provider and the intake endpoint -/

/-- Spec-side success condition of claim C6, written from the spec's words
for comparison with `get_fresh_learny_token`: the token endpoint responded
with HTTP 200 and a well-formed body containing the token field. -/
def specTokenSuccess : TokenResult → Bool
  | TokenResult.resp 200 (TokenBody.parsed (some _)) => true
  | TokenResult.resp _ _ => false
  | TokenResult.exn => false

/-- Claim C6, counterexample: an HTTP 200 response whose well-formed body
contains the token field holding the empty string satisfies the claim's
success condition, yet `get_fresh_learny_token` returns `None`: the Python
guard `if token:` treats the empty string as falsy. -/
theorem C6_counterexample :
    specTokenSuccess (TokenResult.resp 200 (TokenBody.parsed (some ""))) = true ∧
    get_fresh_learny_token (TokenResult.resp 200 (TokenBody.parsed (some "")))
      = none := by
  decide

/-- Claim C6, amended: `get_fresh_learny_token` returns a token `t` exactly
when the endpoint answered HTTP 200 with a well-formed body whose token
field holds the non-empty string `t`; in every other case (non-200 status,
malformed body, missing or empty token field, network error or timeout) it
returns `None` — and, being a total function of the response, it never
raises. -/
theorem C6_token_iff (r : TokenResult) (t : String) :
    get_fresh_learny_token r = some t ↔
      r = TokenResult.resp 200 (TokenBody.parsed (some t)) ∧ t ≠ "" := by
  cases r with
  | exn => simp [get_fresh_learny_token]
  | resp code body =>
    by_cases hc : code = 200
    · subst hc
      cases body with
      | malformed => simp [get_fresh_learny_token]
      | parsed tok =>
        cases tok with
        | none => simp [get_fresh_learny_token]
        | some s =>
          by_cases hs : s = ""
          · subst hs
            simp [get_fresh_learny_token]
            intro h
            exact h.symm
          · simp [get_fresh_learny_token, hs]
            intro h
            subst h
            exact hs
    · simp [get_fresh_learny_token, hc]

/-- Closed instance of `C6_token_iff`: a 200 response carrying a non-empty
token is returned as is. -/
theorem C6_token_iff_witness :
    get_fresh_learny_token (TokenResult.resp 200 (TokenBody.parsed (some "tok123")))
      = some "tok123" :=
  (C6_token_iff (TokenResult.resp 200 (TokenBody.parsed (some "tok123")))
    "tok123").mpr ⟨rfl, by decide⟩

/-- The guard `not data or 'email' not in data or 'session_date' not in data`
of the `register` handler. -/
def requiredMissing : Option ReqBody → Bool
  | none => true
  | some p => p.email.isNone || p.session_date.isNone

/-- An intake request whose required fields are present but whose
`session_date` is not in `YYYY-MM-DD` format. -/
def cexBadDate : ReqBody :=
  { email := some "a@x.com", firstname := some "Ann", lastname := some "Bee",
    phone := none, sequence_id := none, session_date := some "12/31/2024" }

/-- Claim C8, counterexample: a payload whose required fields are both
present but whose `session_date` is malformed is answered with 500, not with
the 400 the claim requires — `strptime` raises `ValueError` inside the `try`
block and the blanket `except` answers 500. -/
theorem C8_counterexample :
    requiredMissing (some cexBadDate) = false ∧
    parseSessionDate "12/31/2024" = none ∧
    register 0 1 (some cexBadDate) [] = (500, []) ∧
    (500 : Nat) ≠ 400 := by
  decide

/-- Claim C8, amended: the intake endpoint responds 201 when the registration
is created; 400 exactly when a required field (`email` or `session_date`) is
absent; a present but malformed `session_date` (not `YYYY-MM-DD`) is answered
500 through the generic exception path, like every other failure inside the
handler; and on any non-201 response no record is created. -/
theorem C8_intake_responses (now : Int) (nid : Nat) (data : Option ReqBody)
    (store : List User) :
    (requiredMissing data = true → register now nid data store = (400, store)) ∧
    (∀ p ds, data = some p → p.email.isSome = true → p.session_date = some ds →
      parseSessionDate ds = none → register now nid data store = (500, store)) ∧
    ((register now nid data store).1 = 201 →
      ∃ u, u.status = Status.pending ∧
        (register now nid data store).2 = store ++ [u]) ∧
    ((register now nid data store).1 ≠ 201 →
      (register now nid data store).2 = store) := by
  cases data with
  | none =>
    refine ⟨fun _ => rfl, ?_, ?_, fun _ => rfl⟩
    · intro p ds hp
      cases hp
    · intro h
      simp [register] at h
  | some p =>
    rcases p with ⟨em, fn, ln, ph, sq, sd⟩
    cases em with
    | none =>
      refine ⟨fun _ => rfl, ?_, ?_, fun _ => rfl⟩
      · intro q ds hq hem
        cases hq
        cases hem
      · intro h
        simp [register] at h
    | some e =>
      cases sd with
      | none =>
        refine ⟨fun _ => rfl, ?_, ?_, fun _ => rfl⟩
        · intro q ds hq hem hsd
          cases hq
          cases hsd
        · intro h
          simp [register] at h
      | some ds0 =>
        cases hp : parseSessionDate ds0 with
        | none =>
          refine ⟨?_, ?_, ?_, ?_⟩
          · intro h
            cases h
          · intro q ds hq hem hsd hparse
            simp [register, hp]
          · intro h
            simp [register, hp] at h
          · intro _
            simp [register, hp]
        | some ymd =>
          cases fn with
          | none =>
            refine ⟨?_, ?_, ?_, ?_⟩
            · intro h
              cases h
            · intro q ds hq hem hsd hparse
              cases hq
              cases hsd
              rw [hp] at hparse
              cases hparse
            · intro h
              simp [register, hp] at h
            · intro _
              simp [register, hp]
          | some f =>
            cases ln with
            | none =>
              refine ⟨?_, ?_, ?_, ?_⟩
              · intro h
                cases h
              · intro q ds hq hem hsd hparse
                cases hq
                cases hsd
                rw [hp] at hparse
                cases hparse
              · intro h
                simp [register, hp] at h
              · intro _
                simp [register, hp]
            | some l =>
              refine ⟨?_, ?_, ?_, ?_⟩
              · intro h
                cases h
              · intro q ds hq hem hsd hparse
                cases hq
                cases hsd
                rw [hp] at hparse
                cases hparse
              · intro _
                refine ⟨{ id := nid, email := e, firstname := some f,
                          lastname := some l, phone := ph, sequence_id := sq,
                          session_date := encodeDate ymd,
                          status := Status.pending, created_at := now }, rfl, ?_⟩
                simp [register, hp]
              · intro h
                exact absurd (by simp [register, hp]) h

/-- Closed instances of `C8_intake_responses`: an empty request body is
answered 400 with the store unchanged, and the malformed-date request of
`C8_counterexample` is answered 500 with the store unchanged. -/
theorem C8_intake_responses_witness :
    register 0 1 none [] = (400, []) ∧
    register 0 1 (some cexBadDate) [] = (500, []) :=
  ⟨(C8_intake_responses 0 1 none []).1 rfl,
   (C8_intake_responses 0 1 (some cexBadDate) []).2.1 cexBadDate "12/31/2024"
     rfl rfl rfl (by decide)⟩

/-- An intake request carrying only the required `email` and `session_date`,
the optional `firstname`, `lastname`, `phone` and `sequence_id` being
absent. -/
def minimalBody : ReqBody :=
  { email := some "a@x.com", firstname := none, lastname := none,
    phone := none, sequence_id := none, session_date := some "2024-01-01" }

/-- Claim C9, failing input: a payload with valid `email` and `session_date`
but no `firstname`/`lastname` is answered 500 and no record is created — the
handler evaluates `data['firstname']` and `data['lastname']` (not
`data.get(...)`), so the `KeyError` lands in the blanket `except`.  The
surrounding code marks these fields optional (nullable columns, `.get` for
`phone` and `sequence_id`), so this is a slip in the handler rather than
intended behaviour. -/
theorem C9_minimal_payload_rejected :
    parseSessionDate "2024-01-01" = some (2024, 1, 1) ∧
    register 0 1 (some minimalBody) [] = (500, []) := by
  decide

end App
